import Mathlib

/-!
Shallow embedding of the Campus Event Management Platform
(`src/main.py`, `src/models.py`, `src/schemas.py`, `src/reports.py`).

Conventions of the embedding:
* timestamps are integers (minutes); `timedelta(minutes=15)` becomes the
  constant `graceMinutes = 15`;
* the SQLAlchemy session is a `DB` record of entity lists; a handler that
  raises `HTTPException` before `db.commit()` leaves the store unchanged
  (the session is closed without commit by `get_db`), so fallible handlers
  return `Except HTTPError (DB × result)` and an error carries no state
  change;
* SQLite arithmetic: division by zero yields NULL, modelled by
  `sqliteDiv : ℚ → ℚ → Option ℚ`;
* a `Student` is identified by its primary key only, since the handlers
  under study consult nothing else of the student row.
-/

namespace EventKnot

/-- Event.status column: 'active' | 'cancelled' | 'completed' (`models.py`). -/
inductive EventStatus
  | active
  | cancelled
  | completed
  deriving DecidableEq

/-- Registration.status column: 'registered' | 'cancelled' | 'attended' (`models.py`). -/
inductive RegStatus
  | registered
  | cancelled
  | attended
  deriving DecidableEq

/-- Attendance.status column: 'absent' | 'present' | 'late' (`models.py`). -/
inductive AttStatus
  | absent
  | present
  | late
  deriving DecidableEq

/-- An `HTTPException(status_code, detail)` raised by a handler. -/
structure HTTPError where
  statusCode : Nat
  detail : String
  deriving DecidableEq

/-- Row of the `events` table (the columns the handlers under study read). -/
structure Event where
  id : Nat
  collegeId : Nat
  title : String
  eventType : String
  startTime : Int
  endTime : Int
  maxCapacity : Nat
  currentRegistrations : Nat
  status : EventStatus
  deriving DecidableEq

/-- Row of the `registrations` table. -/
structure Registration where
  id : Nat
  studentId : Nat
  eventId : Nat
  status : RegStatus
  deriving DecidableEq

/-- Row of the `attendance` table (`registration_id` is UNIQUE in the schema). -/
structure Attendance where
  registrationId : Nat
  checkInTime : Option Int
  checkOutTime : Option Int
  status : AttStatus
  deriving DecidableEq

/-- Row of the `feedback` table (`registration_id` is UNIQUE in the schema). -/
structure Feedback where
  registrationId : Nat
  rating : Int
  comment : String
  deriving DecidableEq

/-- The relevant tables of the store, plus the autoincrement counter used
for fresh registration primary keys. -/
structure DB where
  students : List Nat
  events : List Event
  registrations : List Registration
  attendance : List Attendance
  feedback : List Feedback
  nextRegId : Nat
  deriving DecidableEq

/-- Lookup `db.query(Student).filter(Student.id == sid).first()` (existence only). -/
def findStudent (db : DB) (sid : Nat) : Option Nat :=
  db.students.find? (fun s => s == sid)

/-- Lookup `db.query(Event).filter(Event.id == eid).first()`. -/
def findEvent (db : DB) (eid : Nat) : Option Event :=
  db.events.find? (fun e => e.id == eid)

/-- Lookup `db.query(Registration).filter(Registration.id == rid).first()`. -/
def findRegistration (db : DB) (rid : Nat) : Option Registration :=
  db.registrations.find? (fun r => r.id == rid)

/-- Lookup `db.query(Registration).filter(student_id == sid, event_id == eid).first()` —
note: no filter on the status column (`main.py:346-349`). -/
def findRegistrationPair (db : DB) (sid eid : Nat) : Option Registration :=
  db.registrations.find? (fun r => r.studentId == sid && r.eventId == eid)

/-- Lookup `db.query(Attendance).filter(Attendance.registration_id == rid).first()`. -/
def findAttendance (db : DB) (rid : Nat) : Option Attendance :=
  db.attendance.find? (fun a => a.registrationId == rid)

/-- Lookup `db.query(Feedback).filter(Feedback.registration_id == rid).first()`. -/
def findFeedback (db : DB) (rid : Nat) : Option Feedback :=
  db.feedback.find? (fun f => f.registrationId == rid)

/-- Handler `POST /register/` (`main.py:325-366`, `register_student`). The checks are
performed in source order; on success a Registration row with the default
status 'registered' is inserted and the event's cached counter is
incremented. -/
def register_student (db : DB) (sid eid : Nat) (now : Int) :
    Except HTTPError (DB × Registration) :=
  match findStudent db sid with
  | none => .error ⟨404, "Student not found"⟩
  | some _ =>
    match findEvent db eid with
    | none => .error ⟨404, "Event not found"⟩
    | some event =>
      if event.status ≠ EventStatus.active then
        .error ⟨400, "Event is not active for registration"⟩
      else if event.startTime ≤ now then
        .error ⟨400, "Cannot register for past events"⟩
      else if (findRegistrationPair db sid eid).isSome then
        .error ⟨400, "Student already registered for this event"⟩
      else if event.maxCapacity ≤ event.currentRegistrations then
        .error ⟨400, "Event is at full capacity"⟩
      else
        let reg : Registration := ⟨db.nextRegId, sid, eid, RegStatus.registered⟩
        .ok ({ db with
                registrations := db.registrations ++ [reg]
                events := db.events.map (fun e =>
                  if e.id == eid then
                    { e with currentRegistrations := e.currentRegistrations + 1 }
                  else e)
                nextRegId := db.nextRegId + 1 },
             reg)

/-- Handler `DELETE /register/...` by registration id (`main.py:394-410`,
`cancel_registration`). Succeeds for any existing registration, whatever
its current status; decrements the owning event's counter only when the
counter is positive; marks the registration 'cancelled'. -/
def cancel_registration (db : DB) (rid : Nat) : Except HTTPError DB :=
  match findRegistration db rid with
  | none => .error ⟨404, "Registration not found"⟩
  | some reg =>
    .ok { db with
          events := db.events.map (fun e =>
            if e.id == reg.eventId && decide (0 < e.currentRegistrations) then
              { e with currentRegistrations := e.currentRegistrations - 1 }
            else e)
          registrations := db.registrations.map (fun r =>
            if r.id == rid then { r with status := RegStatus.cancelled } else r) }

/-- The validated `action` field of `AttendanceCreate` (`schemas.py`):
either "check_in" or "check_out". -/
inductive AttAction
  | check_in
  | check_out
  deriving DecidableEq

/-- The 15-minute grace window of `main.py:460`
(`timedelta(minutes=15)`), in minutes. -/
def graceMinutes : Int := 15

/-- Write an attendance row back: update-in-place when a row for the
registration already exists in the session, insert otherwise (mirrors
`db.add` of the lazily created record followed by field assignment and
commit; `registration_id` is UNIQUE). -/
def upsertAttendance (db : DB) (a : Attendance) : DB :=
  if db.attendance.any (fun x => x.registrationId == a.registrationId) then
    { db with attendance := db.attendance.map (fun x =>
        if x.registrationId == a.registrationId then a else x) }
  else
    { db with attendance := db.attendance ++ [a] }

/-- The lazily created attendance record `Attendance(registration_id=rid)`
(`main.py:445`): both timestamps NULL, status defaulted to 'absent' by the
column default (`models.py:113`). -/
def freshAttendance (rid : Nat) : Attendance :=
  ⟨rid, none, none, AttStatus.absent⟩

/-- Handler `POST /attendance/` (`main.py:425-474`, `mark_attendance`). `now` stands
for the handler's `datetime.now()`. An error is raised before `db.commit()`,
so the store is unchanged on every error path (the session created by
`get_db` is closed without committing). -/
def mark_attendance (db : DB) (rid : Nat) (action : AttAction) (now : Int) :
    Except HTTPError (DB × Attendance) :=
  match findRegistration db rid with
  | none => .error ⟨404, "Registration not found"⟩
  | some reg =>
    if reg.status ≠ RegStatus.registered then
      .error ⟨400, "Student is not registered for this event"⟩
    else
      let record := (findAttendance db rid).getD (freshAttendance rid)
      match action with
      | AttAction.check_in =>
        if record.checkInTime.isSome then
          .error ⟨400, "Student already checked in"⟩
        else
          let st :=
            match findEvent db reg.eventId with
            | some event =>
              if now > event.startTime + graceMinutes then AttStatus.late
              else AttStatus.present
            | none => AttStatus.present
          let record1 := { record with checkInTime := some now, status := st }
          .ok (upsertAttendance db record1, record1)
      | AttAction.check_out =>
        if record.checkInTime.isNone then
          .error ⟨400, "Student must check in before checking out"⟩
        else if record.checkOutTime.isSome then
          .error ⟨400, "Student already checked out"⟩
        else
          let record1 := { record with checkOutTime := some now }
          .ok (upsertAttendance db record1, record1)

/-- Handler `POST /feedback/` (`main.py:508-537`, `submit_feedback`), composed with
the pydantic validator `FeedbackBase.rating_must_be_valid`
(`schemas.py:188-192`), which FastAPI runs before the handler and which
turns an out-of-range rating into a 422 validation error. -/
def submit_feedback (db : DB) (rid : Nat) (rating : Int) (comment : String) :
    Except HTTPError (DB × Feedback) :=
  if rating < 1 || rating > 5 then
    .error ⟨422, "Rating must be between 1 and 5"⟩
  else
    match findRegistration db rid with
    | none => .error ⟨404, "Registration not found"⟩
    | some _ =>
      match db.attendance.find? (fun a =>
          a.registrationId == rid &&
          (a.status == AttStatus.present || a.status == AttStatus.late)) with
      | none => .error ⟨400, "Only students who attended the event can submit feedback"⟩
      | some _ =>
        if (findFeedback db rid).isSome then
          .error ⟨400, "Feedback already submitted for this event"⟩
        else
          let fb : Feedback := ⟨rid, rating, comment⟩
          .ok ({ db with feedback := db.feedback ++ [fb] }, fb)

/-- SQLite division: `x / y` evaluates to NULL when `y = 0` (it never
raises), and to the exact quotient otherwise (the reports divide REAL
values). -/
def sqliteDiv (x y : ℚ) : Option ℚ :=
  if y = 0 then none else some (x / y)

/-- SQLite `ROUND(x, 2)`: round half away from zero to 2 decimal places
(all values rounded by the reports under study are nonnegative, where this
agrees with `⌊100x + 1/2⌋ / 100`). -/
def round2 (x : ℚ) : ℚ :=
  (⌊x * 100 + 1 / 2⌋ : ℚ) / 100

/-- Insert `x` into `l` before the first element `y` with `le x y` (helper
for `sortedBy`). -/
def insertBy (le : α → α → Bool) (x : α) : List α → List α
  | [] => [x]
  | y :: ys => if le x y then x :: y :: ys else y :: insertBy le x ys

/-- Insertion sort by a boolean relation; models the `ORDER BY` clause of a
query (the relation is instantiated with the lexicographic descending
comparison of the `ORDER BY` keys). -/
def sortedBy (le : α → α → Bool) : List α → List α
  | [] => []
  | x :: xs => insertBy le x (sortedBy le xs)

/-- All registration rows of an event (`LEFT JOIN registrations r ON
e.id = r.event_id`; every status counts, as in the SQL). -/
def registrationsForEvent (db : DB) (eid : Nat) : List Registration :=
  db.registrations.filter (fun r => r.eventId == eid)

/-- Attendance rows joined through the event's registrations
(`LEFT JOIN attendance a ON r.id = a.registration_id`). -/
def attendanceForEvent (db : DB) (eid : Nat) : List Attendance :=
  (registrationsForEvent db eid).filterMap (fun r => findAttendance db r.id)

/-- One output row of `get_attendance_summary_report` (`reports.py:159-197`). -/
structure AttendanceSummaryRow where
  eventId : Nat
  title : String
  eventType : String
  startTime : Int
  maxCapacity : Nat
  currentRegistrations : Nat
  totalAttendanceRecords : Nat
  presentCount : Nat
  lateCount : Nat
  absentCount : Nat
  attendancePercentage : Option ℚ
  deriving DecidableEq

/-- The aggregates computed for one event by the attendance-summary query:
counts per attendance status and
`ROUND((present + late) * 100.0 / e.current_registrations, 2)`, which is
NULL — never an error — when the counter is zero. -/
def attendanceSummaryRow (db : DB) (e : Event) : AttendanceSummaryRow :=
  let recs := attendanceForEvent db e.id
  let p := (recs.filter (fun a => a.status == AttStatus.present)).length
  let l := (recs.filter (fun a => a.status == AttStatus.late)).length
  let ab := (recs.filter (fun a => a.status == AttStatus.absent)).length
  { eventId := e.id
    title := e.title
    eventType := e.eventType
    startTime := e.startTime
    maxCapacity := e.maxCapacity
    currentRegistrations := e.currentRegistrations
    totalAttendanceRecords := recs.length
    presentCount := p
    lateCount := l
    absentCount := ab
    attendancePercentage :=
      (sqliteDiv (((p : ℚ) + (l : ℚ)) * 100) (e.currentRegistrations : ℚ)).map round2 }

/-- Comparison for `ORDER BY attendance_percentage DESC`: NULL sorts as the smallest value
in SQLite, hence last under DESC. -/
def attPercGe (a b : AttendanceSummaryRow) : Bool :=
  match a.attendancePercentage, b.attendancePercentage with
  | none, none => true
  | none, some _ => false
  | some _, none => true
  | some x, some y => y ≤ x

/-- Whether an event row passes the WHERE clause of the attendance-summary
query: `e.status IN ('active','completed')` plus the optional college
filter. -/
def attSummaryScope (cid : Option Nat) (e : Event) : Bool :=
  (e.status == EventStatus.active || e.status == EventStatus.completed) &&
  (match cid with
   | none => true
   | some c => e.collegeId == c)

/-- Report `ReportGenerator.get_attendance_summary_report` (`reports.py:159-197`):
per event in scope, one aggregate row, ordered by attendance percentage
descending. -/
def get_attendance_summary_report (db : DB) (cid : Option Nat) :
    List AttendanceSummaryRow :=
  sortedBy attPercGe
    ((db.events.filter (attSummaryScope cid)).map (attendanceSummaryRow db))

/-- One output row of `get_event_popularity_report` (`reports.py:23-54`). -/
structure PopularityRow where
  id : Nat
  title : String
  eventType : String
  startTime : Int
  maxCapacity : Nat
  currentRegistrations : Nat
  totalRegistrations : Nat
  registrationPercentage : Option ℚ
  deriving DecidableEq

/-- The aggregates computed for one active event by the popularity query:
`COUNT(r.id)` over all joined registration rows and
`ROUND(e.current_registrations * 100.0 / e.max_capacity, 2)`. -/
def popularityRow (db : DB) (e : Event) : PopularityRow :=
  { id := e.id
    title := e.title
    eventType := e.eventType
    startTime := e.startTime
    maxCapacity := e.maxCapacity
    currentRegistrations := e.currentRegistrations
    totalRegistrations := (registrationsForEvent db e.id).length
    registrationPercentage :=
      (sqliteDiv ((e.currentRegistrations : ℚ) * 100) (e.maxCapacity : ℚ)).map round2 }

/-- Comparison `ORDER BY total_registrations DESC, e.current_registrations DESC` as a
lexicographic comparison. -/
def popGe (a b : PopularityRow) : Bool :=
  b.totalRegistrations < a.totalRegistrations ||
  (a.totalRegistrations == b.totalRegistrations &&
   b.currentRegistrations ≤ a.currentRegistrations)

/-- Whether an event passes the WHERE clause of the popularity query:
`e.status = 'active'` plus the optional college filter. -/
def popScope (cid : Option Nat) (e : Event) : Bool :=
  e.status == EventStatus.active &&
  (match cid with
   | none => true
   | some c => e.collegeId == c)

/-- Report `ReportGenerator.get_event_popularity_report` (`reports.py:23-54`):
active events (optionally of one college), one aggregate row each, ordered
by total registration count descending with ties broken by
`current_registrations` descending, truncated by `LIMIT`. -/
def get_event_popularity_report (db : DB) (cid : Option Nat) (limit : Nat) :
    List PopularityRow :=
  (sortedBy popGe ((db.events.filter (popScope cid)).map (popularityRow db))).take limit

instance {ε : Type u} {α : Type v} [DecidableEq ε] [DecidableEq α] :
    DecidableEq (Except ε α)
  | .ok a, .ok b =>
    if h : a = b then .isTrue (by rw [h])
    else .isFalse (fun hh => h (Except.ok.inj hh))
  | .ok _, .error _ => .isFalse (fun hh => Except.noConfusion hh)
  | .error _, .ok _ => .isFalse (fun hh => Except.noConfusion hh)
  | .error e, .error f =>
    if h : e = f then .isTrue (by rw [h])
    else .isFalse (fun hh => h (Except.error.inj hh))

/-- A registration-engine call: `POST /register/` or
`DELETE /register/{id}`. -/
inductive Op
  | register (sid eid : Nat) (now : Int)
  | cancel (rid : Nat)

/-- Whether a handler call succeeded (HTTP 2xx) rather than raising. -/
def isOk : Except HTTPError α → Bool
  | .ok _ => true
  | .error _ => false

/-- Sequential execution of one call: a failed call raises before
`db.commit()` and leaves the store unchanged. -/
def applyOp (db : DB) : Op → DB
  | .register sid eid now =>
    match register_student db sid eid now with
    | .ok (db1, _) => db1
    | .error _ => db
  | .cancel rid =>
    match cancel_registration db rid with
    | .ok db1 => db1
    | .error _ => db

/-- Sequential execution of a call sequence. -/
def runTrace (db : DB) : List Op → DB
  | [] => db
  | op :: rest => runTrace (applyOp db op) rest

/-- Whether one call succeeds on the given store. -/
def opSucceeds (db : DB) : Op → Bool
  | .register sid eid now => isOk (register_student db sid eid now)
  | .cancel rid => isOk (cancel_registration db rid)

/-- Every call of the sequence succeeds when run in order. -/
def allSucceed (db : DB) : List Op → Bool
  | [] => true
  | op :: rest => opSucceeds db op && allSucceed (applyOp db op) rest

/-- Number of live (status ≠ 'cancelled') registration rows referencing the
event. -/
def liveCount (db : DB) (eid : Nat) : Nat :=
  db.registrations.countP
    (fun r => r.eventId == eid && !(r.status == RegStatus.cancelled))

/-- The cached-counter invariant of the spec: every event's
`current_registrations` equals its live-registration count and is bounded by
`max_capacity` (the lower bound 0 is inherent in the `Nat` counter, matching
the `current_registrations >= 0` CHECK constraint). -/
def counterInvariant (db : DB) : Prop :=
  ∀ e ∈ db.events,
    e.currentRegistrations = liveCount db e.id ∧
    e.currentRegistrations ≤ e.maxCapacity

instance (db : DB) : Decidable (counterInvariant db) := by
  unfold counterInvariant; infer_instance

/-- The call is not a cancel of an already-cancelled registration. -/
def cancelTargetsLive (db : DB) : Op → Bool
  | .register _ _ _ => true
  | .cancel rid =>
    match findRegistration db rid with
    | some r => !(r.status == RegStatus.cancelled)
    | none => true

/-- Along the whole sequence, no cancel hits an already-cancelled
registration. -/
def cancelsOnlyLive (db : DB) : List Op → Bool
  | [] => true
  | op :: rest => cancelTargetsLive db op && cancelsOnlyLive (applyOp db op) rest

/-- The cached counter of the event row with primary key `eid` (0 when the
event does not exist). -/
def eventCounter (db : DB) (eid : Nat) : Nat :=
  match findEvent db eid with
  | some e => e.currentRegistrations
  | none => 0

/-- The call is a successful registration for event `eid`. -/
def succRegFor (db : DB) (eid : Nat) : Op → Bool
  | .register sid eid2 now => eid2 == eid && isOk (register_student db sid eid2 now)
  | .cancel _ => false

/-- The call is a successful cancellation of a registration of event `eid`. -/
def succCancelFor (db : DB) (eid : Nat) : Op → Bool
  | .register _ _ _ => false
  | .cancel rid =>
    match findRegistration db rid with
    | some r => r.eventId == eid
    | none => false

/-- Number of successful registrations for event `eid` along the sequence. -/
def succRegs (db : DB) (eid : Nat) : List Op → Nat
  | [] => 0
  | op :: rest =>
    (if succRegFor db eid op then 1 else 0) + succRegs (applyOp db op) eid rest

/-- Number of successful cancellations for event `eid` along the sequence. -/
def succCancels (db : DB) (eid : Nat) : List Op → Nat
  | [] => 0
  | op :: rest =>
    (if succCancelFor db eid op then 1 else 0) + succCancels (applyOp db op) eid rest

/-- Structural well-formedness of the store: primary keys are unique and
fresh, registrations reference existing events (the FOREIGN KEY
constraints), and the cached-counter invariant holds. -/
def WF (db : DB) : Prop :=
  (db.events.map Event.id).Nodup ∧
  (db.registrations.map Registration.id).Nodup ∧
  (∀ r ∈ db.registrations, r.id < db.nextRegId) ∧
  (∀ r ∈ db.registrations, ∃ e ∈ db.events, e.id = r.eventId) ∧
  counterInvariant db

instance (db : DB) : Decidable (WF db) := by
  unfold WF; infer_instance

/-- Progress of one of the two racing `register_student` callers through its
capacity section: it has not yet read the event row, or it has read the
counter (its session holds the snapshot), or its request finished with the
given outcome. -/
inductive CallPhase
  | start
  | readDone (snapshot : Nat)
  | finished (success : Bool)
  deriving DecidableEq

/-- Shared event counter plus the two callers' phases. The capacity section
of `register_student` (`main.py:334-364`) is two separate data-store round
trips: the SELECT that loads the event row (the snapshot against which the
capacity test at line 354 runs) and the COMMIT that writes the in-session
value `snapshot + 1` back (lines 362-364). Each round trip is atomic; the
pair is not. -/
structure RaceState where
  counter : Nat
  phase1 : CallPhase
  phase2 : CallPhase
  deriving DecidableEq

/-- One atomic round trip of one caller against an event with capacity
`cap`: `start` performs the SELECT; `readDone snap` performs the capacity
test on its snapshot and, if it passes, commits `snap + 1` (otherwise the
request fails with the capacity error and writes nothing); a finished
caller does nothing. -/
def stepCall (cap counter : Nat) : CallPhase → CallPhase × Nat
  | CallPhase.start => (CallPhase.readDone counter, counter)
  | CallPhase.readDone snap =>
    if snap < cap then (CallPhase.finished true, snap + 1)
    else (CallPhase.finished false, counter)
  | CallPhase.finished b => (CallPhase.finished b, counter)

/-- Scheduler step: `true` steps caller 1, `false` steps caller 2. -/
def raceStep (cap : Nat) (s : RaceState) (who : Bool) : RaceState :=
  if who then
    let (p, c) := stepCall cap s.counter s.phase1
    { s with phase1 := p, counter := c }
  else
    let (p, c) := stepCall cap s.counter s.phase2
    { s with phase2 := p, counter := c }

/-- Run a schedule from the initial state: counter 0 (one open seat when
`cap = 1`), both callers about to issue their SELECT. -/
def runRace (cap : Nat) (sched : List Bool) : RaceState :=
  sched.foldl (raceStep cap) ⟨0, CallPhase.start, CallPhase.start⟩

/-- Number of callers whose request succeeded. -/
def successes (s : RaceState) : Nat :=
  (if s.phase1 == CallPhase.finished true then 1 else 0) +
  (if s.phase2 == CallPhase.finished true then 1 else 0)

/-- Number of callers whose request failed with the capacity error. -/
def capacityFailures (s : RaceState) : Nat :=
  (if s.phase1 == CallPhase.finished false then 1 else 0) +
  (if s.phase2 == CallPhase.finished false then 1 else 0)

/-- Both requests have completed. -/
def bothFinished (s : RaceState) : Bool :=
  (s.phase1 == CallPhase.finished true || s.phase1 == CallPhase.finished false) &&
  (s.phase2 == CallPhase.finished true || s.phase2 == CallPhase.finished false)

/-- The six interleavings of the two callers' two round trips each. -/
def fourStepSchedules : List (List Bool) :=
  [[true, true, false, false], [true, false, true, false],
   [true, false, false, true], [false, true, true, false],
   [false, true, false, true], [false, false, true, true]]

/-- The two serialized interleavings: one caller's SELECT and COMMIT both
precede the other caller's SELECT. -/
def isSerialSched (s : List Bool) : Bool :=
  s == [true, true, false, false] || s == [false, false, true, true]

/-- Fixture: an active future event with two seats (id 1, college 1). -/
def evTwoSeats : Event :=
  ⟨1, 1, "E1", "workshop", 100, 200, 2, 0, EventStatus.active⟩

/-- Fixture: two students and the two-seat event, empty otherwise. -/
def dbTwoSeats : DB :=
  ⟨[1, 2], [evTwoSeats], [], [], [], 1⟩

/-- Both students register, then the first registration is cancelled twice
(every call succeeds: the second DELETE also returns 200). -/
def opsDoubleCancel : List Op :=
  [Op.register 1 1 0, Op.register 2 1 0, Op.cancel 1, Op.cancel 1]

/-- Both students register, then the first registration is cancelled once. -/
def opsSingleCancel : List Op :=
  [Op.register 1 1 0, Op.register 2 1 0, Op.cancel 1]

/-- Fixture: an active future event with a single seat. -/
def evOneSeat : Event :=
  ⟨1, 1, "E1", "workshop", 100, 200, 1, 0, EventStatus.active⟩

/-- Fixture: two students racing for the one-seat event. -/
def dbOneSeat : DB :=
  ⟨[1, 2], [evOneSeat], [], [], [], 1⟩

/-- Fixture: an active future event with five seats. -/
def evFiveSeats : Event :=
  ⟨1, 1, "E1", "workshop", 100, 200, 5, 0, EventStatus.active⟩

/-- Fixture: one student and the five-seat event. -/
def dbFiveSeats : DB :=
  ⟨[1], [evFiveSeats], [], [], [], 1⟩

/-- Fixture: one live registration (id 1) of student 1 for the five-seat
event, counter already 1. -/
def dbRegistered : DB :=
  ⟨[1], [⟨1, 1, "E1", "workshop", 100, 200, 5, 1, EventStatus.active⟩],
   [⟨1, 1, 1, RegStatus.registered⟩], [], [], 2⟩

/-- Fixture: a registration that already carries a 'present' attendance
with a recorded check-in, ready for feedback. -/
def dbAttended : DB :=
  ⟨[1], [⟨1, 1, "E1", "workshop", 100, 200, 5, 1, EventStatus.active⟩],
   [⟨1, 1, 1, RegStatus.registered⟩],
   [⟨1, some 100, none, AttStatus.present⟩], [], 2⟩

/-- Fixture: an already-cancelled registration whose event still has a
positive cached counter. -/
def dbCancelledReg : DB :=
  ⟨[1], [⟨1, 1, "E1", "workshop", 100, 200, 5, 1, EventStatus.active⟩],
   [⟨1, 1, 1, RegStatus.cancelled⟩], [], [], 2⟩

/-- Fixture: an active event with zero registrations (counter 0). -/
def dbZeroRegs : DB :=
  ⟨[], [⟨1, 1, "E1", "workshop", 100, 200, 10, 0, EventStatus.active⟩],
   [], [], [], 1⟩

/-- Fixture events for the popularity example: registrations 5/10, 10/10
and 0/5, all active, in college 1. -/
def evFiveOfTen : Event :=
  ⟨1, 1, "A", "workshop", 100, 200, 10, 5, EventStatus.active⟩

def evTenOfTen : Event :=
  ⟨2, 1, "B", "workshop", 100, 200, 10, 10, EventStatus.active⟩

def evZeroOfFive : Event :=
  ⟨3, 1, "C", "workshop", 100, 200, 5, 0, EventStatus.active⟩

/-- Registration rows backing the popularity example: 5 rows for event 1,
10 rows for event 2, none for event 3. -/
def popRegistrations : List Registration :=
  (List.range 5).map (fun i => ⟨i + 1, i + 1, 1, RegStatus.registered⟩) ++
  (List.range 10).map (fun i => ⟨i + 6, i + 1, 2, RegStatus.registered⟩)

/-- Fixture: the three-event college of the popularity example. -/
def dbPopularity : DB :=
  ⟨(List.range 10).map (fun i => i + 1),
   [evFiveOfTen, evTenOfTen, evZeroOfFive], popRegistrations, [], [], 16⟩

section ListHelpers

variable {α : Type u}

/-- Mapping a function that fixes every member is the identity. -/
theorem map_id_of_mem {l : List α} {f : α → α} (h : ∀ x ∈ l, f x = x) :
    l.map f = l := by
  rw [List.map_congr_left h]
  exact List.map_id l

/-- Lookup by key commutes with mapping a key-preserving update. -/
theorem keyFind_map {g : α → Nat} {k : Nat} {f : α → α}
    (hf : ∀ x, g (f x) = g x) (l : List α) :
    (l.map f).find? (fun x => g x == k) = (l.find? (fun x => g x == k)).map f := by
  rw [List.find?_map]
  have hcomp : ((fun x => g x == k) ∘ f) = (fun x => g x == k) := by
    funext x
    simp [Function.comp, hf]
  rw [hcomp]

/-- With nodup keys, `find?` by the key of a member returns that member. -/
theorem keyFind_of_mem {g : α → Nat} {l : List α} (hn : (l.map g).Nodup)
    {a : α} (ha : a ∈ l) : l.find? (fun x => g x == g a) = some a := by
  induction l with
  | nil => cases ha
  | cons x xs ih =>
    rw [List.map_cons, List.nodup_cons] at hn
    rcases List.mem_cons.mp ha with rfl | hmem
    · rw [List.find?_cons_of_pos _ (by simp)]
    · have hne : g x ≠ g a := by
        intro h
        exact hn.1 (h ▸ List.mem_map_of_mem g hmem)
      rw [List.find?_cons_of_neg _ (by simp [hne])]
      exact ih hn.2 hmem

/-- Counting after an update that touches only the row with key `k`
(stated additively to stay in `Nat`). -/
theorem countP_update {g : α → Nat} {q : α → Bool} {f : α → α}
    {l : List α} (hn : (l.map g).Nodup) {k : Nat} {a : α}
    (hfind : l.find? (fun x => g x == k) = some a)
    (hf : ∀ x, g x ≠ k → f x = x) :
    (l.map f).countP q + (if q a then 1 else 0)
      = l.countP q + (if q (f a) then 1 else 0) := by
  induction l with
  | nil => simp [List.find?] at hfind
  | cons x xs ih =>
    rw [List.map_cons, List.nodup_cons] at hn
    by_cases hx : g x = k
    · rw [List.find?_cons_of_pos _ (by simp [hx])] at hfind
      injection hfind with h
      subst h
      have hxs : ∀ y ∈ xs, f y = y := by
        intro y hy
        apply hf
        intro hk
        apply hn.1
        rw [hx, ← hk]
        exact List.mem_map_of_mem g hy
      rw [List.map_cons, map_id_of_mem hxs, List.countP_cons, List.countP_cons]
      omega
    · rw [List.find?_cons_of_neg _ (by simp [hx])] at hfind
      have := ih hn.2 hfind
      rw [List.map_cons, hf x hx, List.countP_cons, List.countP_cons]
      omega

/-- Membership in an insertion. -/
theorem mem_insertBy {le : α → α → Bool} {x a : α} {l : List α} :
    a ∈ insertBy le x l ↔ a = x ∨ a ∈ l := by
  induction l with
  | nil => simp [insertBy]
  | cons y ys ih =>
    by_cases h : le x y
    · simp only [insertBy, if_pos h, List.mem_cons]
    · simp only [insertBy, if_neg h, List.mem_cons, ih]
      tauto

/-- Sorting does not change membership. -/
theorem mem_sortedBy {le : α → α → Bool} {a : α} {l : List α} :
    a ∈ sortedBy le l ↔ a ∈ l := by
  induction l with
  | nil => simp [sortedBy]
  | cons x xs ih =>
    simp only [sortedBy, mem_insertBy, ih, List.mem_cons]

/-- Inserting into a list sorted by a total transitive boolean relation
keeps it sorted. -/
theorem pairwise_insertBy {le : α → α → Bool}
    (htot : ∀ a b, le a b = true ∨ le b a = true)
    (htrans : ∀ a b c, le a b = true → le b c = true → le a c = true)
    {x : α} {l : List α} (hl : l.Pairwise (fun a b => le a b = true)) :
    (insertBy le x l).Pairwise (fun a b => le a b = true) := by
  induction l with
  | nil => simp [insertBy]
  | cons y ys ih =>
    rw [List.pairwise_cons] at hl
    by_cases h : le x y
    · rw [insertBy, if_pos h, List.pairwise_cons]
      refine ⟨?_, List.pairwise_cons.mpr hl⟩
      intro b hb
      rcases List.mem_cons.mp hb with rfl | hmem
      · exact h
      · exact htrans x y b h (hl.1 b hmem)
    · rw [insertBy, if_neg h, List.pairwise_cons]
      refine ⟨?_, ih hl.2⟩
      intro b hb
      rcases mem_insertBy.mp hb with rfl | hmem
      · rcases htot y b with hyb | hby
        · exact hyb
        · rcases htot b y with h1 | h1
          · exact absurd h1 h
          · exact absurd hby h
      · exact hl.1 b hmem

/-- The result of `sortedBy` is sorted, for a total transitive relation. -/
theorem pairwise_sortedBy {le : α → α → Bool}
    (htot : ∀ a b, le a b = true ∨ le b a = true)
    (htrans : ∀ a b c, le a b = true → le b c = true → le a c = true)
    (l : List α) :
    (sortedBy le l).Pairwise (fun a b => le a b = true) := by
  induction l with
  | nil => simp [sortedBy]
  | cons x xs ih => exact pairwise_insertBy htot htrans ih

end ListHelpers

section EngineLemmas

/-- Inversion of a successful `register_student` call: all six checks
passed and the returned store holds the inserted row and the incremented
counter. -/
theorem register_ok_inv {db : DB} {sid eid : Nat} {now : Int} {db1 : DB}
    {reg : Registration}
    (h : register_student db sid eid now = .ok (db1, reg)) :
    ∃ event, findEvent db eid = some event ∧
      (findStudent db sid).isSome = true ∧
      event.status = EventStatus.active ∧
      now < event.startTime ∧
      findRegistrationPair db sid eid = none ∧
      event.currentRegistrations < event.maxCapacity ∧
      reg = ⟨db.nextRegId, sid, eid, RegStatus.registered⟩ ∧
      db1 = { db with
              registrations := db.registrations ++ [reg]
              events := db.events.map (fun e =>
                if e.id == eid then
                  { e with currentRegistrations := e.currentRegistrations + 1 }
                else e)
              nextRegId := db.nextRegId + 1 } := by
  unfold register_student at h
  cases hs : findStudent db sid with
  | none => rw [hs] at h; cases h
  | some s =>
    rw [hs] at h
    cases he : findEvent db eid with
    | none => rw [he] at h; cases h
    | some event =>
      rw [he] at h
      dsimp only at h
      by_cases h1 : event.status ≠ EventStatus.active
      · rw [if_pos h1] at h; cases h
      · rw [if_neg h1] at h
        by_cases h2 : event.startTime ≤ now
        · rw [if_pos h2] at h; cases h
        · rw [if_neg h2] at h
          by_cases h3 : (findRegistrationPair db sid eid).isSome = true
          · rw [if_pos h3] at h; cases h
          · rw [if_neg h3] at h
            by_cases h4 : event.maxCapacity ≤ event.currentRegistrations
            · rw [if_pos h4] at h; cases h
            · rw [if_neg h4] at h
              injection h with h5
              injection h5 with h6 h7
              subst h7
              subst h6
              exact ⟨event, rfl, rfl, not_not.mp h1, lt_of_not_le h2,
                Option.not_isSome_iff_eq_none.mp h3, lt_of_not_le h4, rfl, rfl⟩

/-- Inversion of a successful `cancel_registration` call: the registration
was found, the event counter was decremented when positive, and the row was
marked 'cancelled'. -/
theorem cancel_ok_inv {db : DB} {rid : Nat} {db1 : DB}
    (h : cancel_registration db rid = .ok db1) :
    ∃ reg, findRegistration db rid = some reg ∧
      db1 = { db with
              events := db.events.map (fun e =>
                if e.id == reg.eventId && decide (0 < e.currentRegistrations) then
                  { e with currentRegistrations := e.currentRegistrations - 1 }
                else e)
              registrations := db.registrations.map (fun r =>
                if r.id == rid then { r with status := RegStatus.cancelled }
                else r) } := by
  unfold cancel_registration at h
  cases hr : findRegistration db rid with
  | none => rw [hr] at h; cases h
  | some reg =>
    rw [hr] at h
    injection h with h1
    exact ⟨reg, rfl, h1.symm⟩

/-- Note `cancel_registration` fails only when the registration is absent. -/
theorem cancel_error_inv {db : DB} {rid : Nat} {e : HTTPError}
    (h : cancel_registration db rid = .error e) :
    findRegistration db rid = none := by
  unfold cancel_registration at h
  cases hr : findRegistration db rid with
  | none => rfl
  | some reg => rw [hr] at h; cases h

/-- A successful registration preserves store well-formedness and
increments exactly the target event's cached counter. -/
theorem WF_register_ok {db : DB} {sid eid : Nat} {now : Int} {db1 : DB}
    {reg : Registration}
    (hwf : WF db) (h : register_student db sid eid now = .ok (db1, reg)) :
    WF db1 ∧ ∀ k, eventCounter db1 k = eventCounter db k + (if k = eid then 1 else 0) := by
  obtain ⟨event, he, -, -, -, hpair, hcap, hreg, hdb1⟩ := register_ok_inv h
  obtain ⟨hnodupE, hnodupR, hfresh, href, hinv⟩ := hwf
  have hevmem : event ∈ db.events := List.mem_of_find?_eq_some he
  have hevid : event.id = eid := by
    have := List.find?_some he
    simpa using this
  subst hreg
  subst hdb1
  have hgid : ∀ e : Event,
      (if e.id == eid then
        { e with currentRegistrations := e.currentRegistrations + 1 }
       else e).id = e.id := by
    intro e
    by_cases hb : (e.id == eid) = true
    · rw [if_pos hb]
    · rw [if_neg hb]
  have hmapid : (db.events.map (fun e =>
      if e.id == eid then
        { e with currentRegistrations := e.currentRegistrations + 1 }
      else e)).map Event.id = db.events.map Event.id := by
    rw [List.map_map]
    exact List.map_congr_left (fun e _ => hgid e)
  have hlive1 : ∀ k, liveCount
      { db with
        registrations := db.registrations ++
          [⟨db.nextRegId, sid, eid, RegStatus.registered⟩]
        events := db.events.map (fun e =>
          if e.id == eid then
            { e with currentRegistrations := e.currentRegistrations + 1 }
          else e)
        nextRegId := db.nextRegId + 1 } k
      = liveCount db k + (if eid = k then 1 else 0) := by
    intro k
    unfold liveCount
    rw [List.countP_append]
    by_cases hk : eid = k
    · simp [hk]
    · simp [hk]
  refine ⟨⟨?_, ?_, ?_, ?_, ?_⟩, ?_⟩
  · exact hmapid ▸ hnodupE
  · rw [List.map_append, List.nodup_append]
    refine ⟨hnodupR, List.nodup_singleton _, ?_⟩
    intro x hx hx1
    rw [List.mem_map] at hx
    obtain ⟨r, hr, hrid⟩ := hx
    simp only [List.map_cons, List.map_nil, List.mem_singleton] at hx1
    have := hfresh r hr
    omega
  · intro r hr
    rw [List.mem_append] at hr
    rcases hr with hr | hr
    · have := hfresh r hr
      show r.id < db.nextRegId + 1
      omega
    · rw [List.mem_singleton] at hr
      subst hr
      show db.nextRegId < db.nextRegId + 1
      omega
  · intro r hr
    rw [List.mem_append] at hr
    rcases hr with hr | hr
    · obtain ⟨e, hemem, hid⟩ := href r hr
      exact ⟨_, List.mem_map_of_mem _ hemem, (hgid e).trans hid⟩
    · rw [List.mem_singleton] at hr
      subst hr
      exact ⟨_, List.mem_map_of_mem _ hevmem, (hgid event).trans hevid⟩
  · intro e1 hmem
    rw [List.mem_map] at hmem
    obtain ⟨e, hemem, rfl⟩ := hmem
    by_cases hid : e.id = eid
    · have heq : e = event :=
        List.inj_on_of_nodup_map hnodupE hemem hevmem (by rw [hid, hevid])
      subst heq
      rw [if_pos (by simp [hid])]
      dsimp only
      constructor
      · rw [hlive1, if_pos hid.symm, ← (hinv e hemem).1]
      · have := hcap
        omega
    · rw [if_neg (by simp [hid])]
      constructor
      · rw [hlive1, if_neg (fun hk => hid hk.symm), Nat.add_zero, (hinv e hemem).1]
      · exact (hinv e hemem).2
  · intro k
    unfold eventCounter findEvent
    rw [keyFind_map hgid]
    cases hf : db.events.find? (fun e => e.id == k) with
    | none =>
      have hk : k ≠ eid := by
        intro hk
        subst hk
        unfold findEvent at he
        rw [he] at hf
        cases hf
      simp [hk]
    | some e =>
      have heid : e.id = k := by
        have := List.find?_some hf
        simpa using this
      by_cases hk : k = eid
      · rw [if_pos hk, Option.map_some']
        dsimp only
        rw [if_pos (by simp [heid, hk])]
      · rw [if_neg hk, Option.map_some']
        dsimp only
        rw [if_neg (by simp [heid, hk]), Nat.add_zero]

/-- A successful cancellation of a not-yet-cancelled registration preserves
store well-formedness and decrements exactly the owning event's cached
counter. -/
theorem WF_cancel_ok {db : DB} {rid : Nat} {db1 : DB} {reg : Registration}
    (hwf : WF db) (h : cancel_registration db rid = .ok db1)
    (hfind : findRegistration db rid = some reg)
    (hlive : reg.status ≠ RegStatus.cancelled) :
    WF db1 ∧
    ∀ k, eventCounter db1 k + (if reg.eventId = k then 1 else 0) = eventCounter db k := by
  obtain ⟨reg1, hfind1, hdb1⟩ := cancel_ok_inv h
  rw [hfind1] at hfind
  injection hfind with hfind
  obtain rfl := hfind.symm
  obtain ⟨hnodupE, hnodupR, hfresh, href, hinv⟩ := hwf
  have hregmem : reg ∈ db.registrations := List.mem_of_find?_eq_some hfind1
  have hregid : reg.id = rid := by
    have := List.find?_some hfind1
    simpa using this
  subst hdb1
  have hgid : ∀ e : Event,
      (if e.id == reg.eventId && decide (0 < e.currentRegistrations) then
        { e with currentRegistrations := e.currentRegistrations - 1 }
       else e).id = e.id := by
    intro e
    by_cases hb : (e.id == reg.eventId && decide (0 < e.currentRegistrations)) = true
    · rw [if_pos hb]
    · rw [if_neg hb]
  have hfid : ∀ r : Registration,
      (if r.id == rid then { r with status := RegStatus.cancelled } else r).id = r.id := by
    intro r
    by_cases hb : (r.id == rid) = true
    · rw [if_pos hb]
    · rw [if_neg hb]
  have hfev : ∀ r : Registration,
      (if r.id == rid then { r with status := RegStatus.cancelled } else r).eventId
        = r.eventId := by
    intro r
    by_cases hb : (r.id == rid) = true
    · rw [if_pos hb]
    · rw [if_neg hb]
  have hmapidE : (db.events.map (fun e =>
      if e.id == reg.eventId && decide (0 < e.currentRegistrations) then
        { e with currentRegistrations := e.currentRegistrations - 1 }
      else e)).map Event.id = db.events.map Event.id := by
    rw [List.map_map]
    exact List.map_congr_left (fun e _ => hgid e)
  have hmapidR : (db.registrations.map (fun r =>
      if r.id == rid then { r with status := RegStatus.cancelled } else r)).map
        Registration.id = db.registrations.map Registration.id := by
    rw [List.map_map]
    exact List.map_congr_left (fun r _ => hfid r)
  have hlc : ∀ k, liveCount
      { db with
        events := db.events.map (fun e =>
          if e.id == reg.eventId && decide (0 < e.currentRegistrations) then
            { e with currentRegistrations := e.currentRegistrations - 1 }
          else e)
        registrations := db.registrations.map (fun r =>
          if r.id == rid then { r with status := RegStatus.cancelled } else r) } k
      + (if reg.eventId = k then 1 else 0) = liveCount db k := by
    intro k
    unfold liveCount
    have := countP_update (g := Registration.id)
      (q := fun r => r.eventId == k && !(r.status == RegStatus.cancelled))
      (f := fun r => if r.id == rid then { r with status := RegStatus.cancelled } else r)
      hnodupR hfind1 (fun x hx => if_neg (by simp [hx]))
    have hq : (fun r => r.eventId == k && !(r.status == RegStatus.cancelled)) reg
        = decide (reg.eventId = k) := by
      simp only [Bool.and_eq_true, beq_iff_eq, Bool.not_eq_true', decide_eq_true_eq]
      by_cases hk : reg.eventId = k
      · simp [hk, hlive]
      · simp [hk]
    have hqf : (fun r => r.eventId == k && !(r.status == RegStatus.cancelled))
        (if reg.id == rid then { reg with status := RegStatus.cancelled } else reg)
        = false := by
      rw [if_pos (by simp [hregid])]
      simp
    rw [hq, hqf] at this
    simp only [if_false, Bool.false_eq_true, Nat.add_zero] at this
    by_cases hk : reg.eventId = k
    · rw [if_pos hk]
      rw [if_pos (by simp [hk])] at this
      exact this
    · rw [if_neg hk]
      rw [if_neg (by simp [hk])] at this
      simpa using this
  have hge1 : ∀ k, reg.eventId = k → 1 ≤ liveCount db k := by
    intro k hk
    unfold liveCount
    rw [Nat.succ_le_iff]
    rw [List.countP_pos_iff]
    exact ⟨reg, hregmem, by simp [hk, hlive]⟩
  refine ⟨⟨?_, ?_, ?_, ?_, ?_⟩, ?_⟩
  · exact hmapidE ▸ hnodupE
  · exact hmapidR ▸ hnodupR
  · intro r hr
    rw [List.mem_map] at hr
    obtain ⟨r0, hr0, rfl⟩ := hr
    have := hfresh r0 hr0
    show (if r0.id == rid then { r0 with status := RegStatus.cancelled } else r0).id
      < db.nextRegId
    rw [hfid r0]
    exact this
  · intro r hr
    rw [List.mem_map] at hr
    obtain ⟨r0, hr0, rfl⟩ := hr
    obtain ⟨e, hemem, hid⟩ := href r0 hr0
    refine ⟨_, List.mem_map_of_mem _ hemem, ?_⟩
    rw [hgid e, hfev r0]
    exact hid
  · intro e1 hmem
    rw [List.mem_map] at hmem
    obtain ⟨e, hemem, rfl⟩ := hmem
    have hinve := hinv e hemem
    by_cases hid : e.id = reg.eventId
    · have hpos : 0 < e.currentRegistrations := by
        have := hge1 e.id (hid.symm)
        omega
      rw [if_pos (by simp [hid, hpos])]
      have hlck := hlc e.id
      rw [if_pos hid.symm] at hlck
      dsimp only
      constructor
      · omega
      · omega
    · rw [if_neg (by simp [hid])]
      have hlck := hlc e.id
      rw [if_neg (fun hk => hid hk.symm)] at hlck
      constructor
      · omega
      · exact hinve.2
  · intro k
    unfold eventCounter findEvent
    rw [keyFind_map hgid]
    cases hf : db.events.find? (fun e => e.id == k) with
    | none =>
      have hk : reg.eventId ≠ k := by
        intro hk
        obtain ⟨e, hemem, hid⟩ := href reg hregmem
        rw [List.find?_eq_none] at hf
        exact hf e hemem (by simp [hid, hk])
      simp [hk]
    | some e =>
      have heid : e.id = k := by
        have := List.find?_some hf
        simpa using this
      have hemem : e ∈ db.events := List.mem_of_find?_eq_some hf
      have hinve := hinv e hemem
      rw [Option.map_some']
      dsimp only
      by_cases hk : reg.eventId = k
      · have hpos : 0 < e.currentRegistrations := by
          have := hge1 k hk
          rw [← heid] at this
          have h2 := hinve.1
          rw [heid] at h2
          omega
        rw [if_pos (by rw [heid, hk]; simp [hpos]), if_pos hk]
        show e.currentRegistrations - 1 + 1 = e.currentRegistrations
        omega
      · have hcond : (e.id == reg.eventId) = false := by
          simp only [beq_eq_false_iff_ne, ne_eq, heid]
          exact fun h1 => hk h1.symm
        rw [if_neg (by simp [hcond]), if_neg hk]
        omega

/-- One engine call that does not cancel an already-cancelled registration
preserves well-formedness and moves each event counter by exactly the
successful registrations minus the successful cancellations it contributes. -/
theorem WF_applyOp {db : DB} {op : Op} (hwf : WF db)
    (hok : cancelTargetsLive db op = true) :
    WF (applyOp db op) ∧
    ∀ k, eventCounter (applyOp db op) k + (if succCancelFor db k op then 1 else 0)
      = eventCounter db k + (if succRegFor db k op then 1 else 0) := by
  cases op with
  | register sid eid now =>
    cases hr : register_student db sid eid now with
    | error e =>
      have happ : applyOp db (Op.register sid eid now) = db := by
        simp only [applyOp, hr]
      have hsr : ∀ k, succRegFor db k (Op.register sid eid now) = false := by
        intro k
        simp only [succRegFor, isOk, hr, Bool.and_false]
      refine ⟨by rw [happ]; exact hwf, fun k => ?_⟩
      rw [happ, hsr k]
      have hsc : succCancelFor db k (Op.register sid eid now) = false := rfl
      rw [hsc]
    | ok p =>
      obtain ⟨db1, reg⟩ := p
      have happ : applyOp db (Op.register sid eid now) = db1 := by
        simp only [applyOp, hr]
      obtain ⟨hwf1, hcnt⟩ := WF_register_ok hwf hr
      refine ⟨by rw [happ]; exact hwf1, fun k => ?_⟩
      rw [happ, hcnt k]
      have hsc : succCancelFor db k (Op.register sid eid now) = false := rfl
      have hsr : succRegFor db k (Op.register sid eid now) = (eid == k) := by
        simp only [succRegFor, isOk, hr, Bool.and_true]
      rw [hsc, hsr]
      by_cases hk : k = eid
      · rw [if_pos hk]
        simp [hk]
      · rw [if_neg hk]
        have hbk : (eid == k) = false := by
          simp only [beq_eq_false_iff_ne, ne_eq]
          exact fun h1 => hk h1.symm
        simp [hbk]
  | cancel rid =>
    cases hr : cancel_registration db rid with
    | error e =>
      have hnone := cancel_error_inv hr
      have happ : applyOp db (Op.cancel rid) = db := by
        simp only [applyOp, hr]
      refine ⟨by rw [happ]; exact hwf, fun k => ?_⟩
      rw [happ]
      have hsc : succCancelFor db k (Op.cancel rid) = false := by
        simp only [succCancelFor, hnone]
      have hsr : succRegFor db k (Op.cancel rid) = false := rfl
      rw [hsc, hsr]
    | ok db1 =>
      obtain ⟨reg, hfind, -⟩ := cancel_ok_inv hr
      have hlive : reg.status ≠ RegStatus.cancelled := by
        have hok1 := hok
        simp only [cancelTargetsLive, hfind] at hok1
        simpa using hok1
      obtain ⟨hwf1, hcnt⟩ := WF_cancel_ok hwf hr hfind hlive
      have happ : applyOp db (Op.cancel rid) = db1 := by
        simp only [applyOp, hr]
      refine ⟨by rw [happ]; exact hwf1, fun k => ?_⟩
      rw [happ]
      have hsc : succCancelFor db k (Op.cancel rid) = (reg.eventId == k) := by
        simp only [succCancelFor, hfind]
      have hsr : succRegFor db k (Op.cancel rid) = false := rfl
      rw [hsc, hsr]
      have hck := hcnt k
      by_cases hk : reg.eventId = k
      · rw [if_pos hk] at hck
        rw [if_pos (by simp [hk])]
        simp only [Bool.false_eq_true, if_false]
        omega
      · rw [if_neg hk] at hck
        rw [if_neg (by simp [hk])]
        simp only [Bool.false_eq_true, if_false]
        omega

/-- Well-formedness is preserved along any call sequence that never cancels
an already-cancelled registration. -/
theorem WF_runTrace {db : DB} {ops : List Op} (hwf : WF db)
    (hok : cancelsOnlyLive db ops = true) : WF (runTrace db ops) := by
  induction ops generalizing db with
  | nil => exact hwf
  | cons op rest ih =>
    unfold cancelsOnlyLive at hok
    rw [Bool.and_eq_true] at hok
    exact ih (WF_applyOp hwf hok.1).1 hok.2

/-- Counter accounting along a call sequence: the final counter plus the
successful cancellations equals the initial counter plus the successful
registrations, per event. -/
theorem counter_runTrace {db : DB} {ops : List Op} (hwf : WF db)
    (hok : cancelsOnlyLive db ops = true) (eid : Nat) :
    eventCounter (runTrace db ops) eid + succCancels db eid ops
      = eventCounter db eid + succRegs db eid ops := by
  induction ops generalizing db with
  | nil => rfl
  | cons op rest ih =>
    unfold cancelsOnlyLive at hok
    rw [Bool.and_eq_true] at hok
    have hstep := (WF_applyOp hwf hok.1).2 eid
    have hrest := ih (WF_applyOp hwf hok.1).1 hok.2
    unfold runTrace succCancels succRegs
    omega

end EngineLemmas

/-- C1, counterexample: the claimed invariant fails on a sequence of four
successful calls. Both students register for the two-seat event, then
registration 1 is cancelled twice (the second DELETE also succeeds); the
counter drops to 0 while one live registration remains, and 2 successful
registrations minus 3 successful cancellations no longer matches. -/
theorem counter_invariant_fails_after_double_cancel :
    allSucceed dbTwoSeats opsDoubleCancel = true ∧
    ¬ counterInvariant (runTrace dbTwoSeats opsDoubleCancel) :=
  ⟨by decide, by decide⟩

/-- C1, amended: restricted to call sequences in which no cancel targets an
already-cancelled registration, every event's `current_registrations`
equals its live-registration count and stays within `0 ≤ _ ≤ max_capacity`
after any finite sequence of register/cancel calls, and the initial counter
plus successful registrations equals the final counter plus successful
cancellations (no successful registration is lost). -/
theorem counter_invariant_without_double_cancel (db : DB) (ops : List Op)
    (eid : Nat) (hwf : WF db) (hok : cancelsOnlyLive db ops = true) :
    counterInvariant (runTrace db ops) ∧
    eventCounter (runTrace db ops) eid + succCancels db eid ops
      = eventCounter db eid + succRegs db eid ops :=
  ⟨(WF_runTrace hwf hok).2.2.2.2, counter_runTrace hwf hok eid⟩

/-- Witness for C1 (amended) at a concrete run: register twice, cancel
once, on the two-seat event. -/
theorem counter_invariant_without_double_cancel_witness :
    WF dbTwoSeats ∧ cancelsOnlyLive dbTwoSeats opsSingleCancel = true ∧
    (counterInvariant (runTrace dbTwoSeats opsSingleCancel) ∧
     eventCounter (runTrace dbTwoSeats opsSingleCancel) 1
        + succCancels dbTwoSeats 1 opsSingleCancel
      = eventCounter dbTwoSeats 1 + succRegs dbTwoSeats 1 opsSingleCancel) :=
  ⟨by decide, by decide,
   counter_invariant_without_double_cancel dbTwoSeats opsSingleCancel 1
     (by decide) (by decide)⟩

/-- C2, counterexample: the capacity section is a separate read-then-write
pair, so in the interleaving where both callers load the event row before
either commits, both requests succeed on the one remaining seat — it is not
the case that every interleaving of the two callers ends with exactly one
success. -/
theorem race_both_succeed_counterexample :
    successes (runRace 1 [true, false, true, false]) = 2 ∧
    ¬ (∀ sched : List Bool, bothFinished (runRace 1 sched) = true →
         successes (runRace 1 sched) = 1) := by
  refine ⟨by decide, fun h => ?_⟩
  exact absurd (h [true, false, true, false] (by decide)) (by decide)

/-- C2, amended: over the six interleavings of the two callers' SELECT and
COMMIT round trips on the last open seat, exactly one caller succeeds (and
the other observes the capacity failure) precisely in the two serialized
interleavings; in the four overlapping ones both succeed. When the two
`register_student` calls execute sequentially, in either order, the first
succeeds and the second fails with the capacity error. -/
theorem race_one_success_iff_serialized :
    fourStepSchedules.all (fun s =>
      successes (runRace 1 s) == (if isSerialSched s then 1 else 2) &&
      capacityFailures (runRace 1 s) == (if isSerialSched s then 1 else 0)) = true ∧
    opSucceeds dbOneSeat (Op.register 1 1 0) = true ∧
    register_student (applyOp dbOneSeat (Op.register 1 1 0)) 2 1 0
      = .error ⟨400, "Event is at full capacity"⟩ ∧
    opSucceeds dbOneSeat (Op.register 2 1 0) = true ∧
    register_student (applyOp dbOneSeat (Op.register 2 1 0)) 1 1 0
      = .error ⟨400, "Event is at full capacity"⟩ := by
  refine ⟨by decide, by decide, by decide, by decide, by decide⟩

/-- C3: `register_student` checks its preconditions in source order — the
student lookup, the event lookup, the event's 'active' status, the
future-start check, the duplicate check on the (student, event) pair, and
the capacity check — each failure raising its own error (the six errors are
pairwise distinct); when all checks pass, a registration with status
'registered' is inserted and the event's cached counter grows by exactly 1. -/
theorem register_precondition_order (db : DB) (sid eid : Nat) (now : Int) :
    (findStudent db sid = none →
      register_student db sid eid now = .error ⟨404, "Student not found"⟩) ∧
    ((findStudent db sid).isSome = true → findEvent db eid = none →
      register_student db sid eid now = .error ⟨404, "Event not found"⟩) ∧
    (∀ event, (findStudent db sid).isSome = true → findEvent db eid = some event →
      event.status ≠ EventStatus.active →
      register_student db sid eid now
        = .error ⟨400, "Event is not active for registration"⟩) ∧
    (∀ event, (findStudent db sid).isSome = true → findEvent db eid = some event →
      event.status = EventStatus.active → event.startTime ≤ now →
      register_student db sid eid now
        = .error ⟨400, "Cannot register for past events"⟩) ∧
    (∀ event, (findStudent db sid).isSome = true → findEvent db eid = some event →
      event.status = EventStatus.active → now < event.startTime →
      (findRegistrationPair db sid eid).isSome = true →
      register_student db sid eid now
        = .error ⟨400, "Student already registered for this event"⟩) ∧
    (∀ event, (findStudent db sid).isSome = true → findEvent db eid = some event →
      event.status = EventStatus.active → now < event.startTime →
      findRegistrationPair db sid eid = none →
      event.maxCapacity ≤ event.currentRegistrations →
      register_student db sid eid now
        = .error ⟨400, "Event is at full capacity"⟩) ∧
    (∀ event, (findStudent db sid).isSome = true → findEvent db eid = some event →
      event.status = EventStatus.active → now < event.startTime →
      findRegistrationPair db sid eid = none →
      event.currentRegistrations < event.maxCapacity →
      ∃ db1, register_student db sid eid now
          = .ok (db1, ⟨db.nextRegId, sid, eid, RegStatus.registered⟩) ∧
        db1.registrations = db.registrations
          ++ [⟨db.nextRegId, sid, eid, RegStatus.registered⟩] ∧
        eventCounter db1 eid = eventCounter db eid + 1) ∧
    ([(⟨404, "Student not found"⟩ : HTTPError), ⟨404, "Event not found"⟩,
      ⟨400, "Event is not active for registration"⟩,
      ⟨400, "Cannot register for past events"⟩,
      ⟨400, "Student already registered for this event"⟩,
      ⟨400, "Event is at full capacity"⟩] : List HTTPError).Nodup := by
  refine ⟨?_, ?_, ?_, ?_, ?_, ?_, ?_, by decide⟩
  · intro h
    unfold register_student
    rw [h]
  · intro h1 h2
    unfold register_student
    cases hs : findStudent db sid with
    | none => rw [hs] at h1; simp at h1
    | some s => rw [h2]
  · intro event h1 h2 h3
    unfold register_student
    cases hs : findStudent db sid with
    | none => rw [hs] at h1; simp at h1
    | some s =>
      rw [h2]
      dsimp only
      rw [if_pos h3]
  · intro event h1 h2 h3 h4
    unfold register_student
    cases hs : findStudent db sid with
    | none => rw [hs] at h1; simp at h1
    | some s =>
      rw [h2]
      dsimp only
      rw [if_neg (by simp [h3]), if_pos h4]
  · intro event h1 h2 h3 h4 h5
    unfold register_student
    cases hs : findStudent db sid with
    | none => rw [hs] at h1; simp at h1
    | some s =>
      rw [h2]
      dsimp only
      rw [if_neg (by simp [h3]), if_neg (not_le.mpr h4), if_pos h5]
  · intro event h1 h2 h3 h4 h5 h6
    unfold register_student
    cases hs : findStudent db sid with
    | none => rw [hs] at h1; simp at h1
    | some s =>
      rw [h2]
      dsimp only
      rw [if_neg (by simp [h3]), if_neg (not_le.mpr h4),
        if_neg (by simp [h5]), if_pos h6]
  · intro event h1 h2 h3 h4 h5 h6
    have hevid : (event.id == eid) = true := by
      have := List.find?_some h2
      simpa using this
    refine ⟨{ db with
        registrations := db.registrations
          ++ [⟨db.nextRegId, sid, eid, RegStatus.registered⟩]
        events := db.events.map (fun e =>
          if e.id == eid then
            { e with currentRegistrations := e.currentRegistrations + 1 }
          else e)
        nextRegId := db.nextRegId + 1 }, ?_, rfl, ?_⟩
    · unfold register_student
      cases hs : findStudent db sid with
      | none => rw [hs] at h1; simp at h1
      | some s =>
        rw [h2]
        dsimp only
        rw [if_neg (by simp [h3]), if_neg (not_le.mpr h4),
          if_neg (by simp [h5]), if_neg (not_le.mpr h6)]
    · unfold eventCounter findEvent
      dsimp only
      rw [keyFind_map (g := Event.id) (k := eid)
        (f := fun e => if e.id == eid then
          { e with currentRegistrations := e.currentRegistrations + 1 } else e)
        (fun e => by
          show (if e.id == eid then
            { e with currentRegistrations := e.currentRegistrations + 1 }
            else e).id = e.id
          by_cases hb : (e.id == eid) = true
          · rw [if_pos hb]
          · rw [if_neg hb]) db.events]
      unfold findEvent at h2
      rw [h2, Option.map_some']
      dsimp only
      rw [if_pos hevid]

/-- Witness for C3: all six checks pass on the five-seat fixture and the
registration is created with the counter incremented. -/
theorem register_precondition_order_witness :
    ∃ db1, register_student dbFiveSeats 1 1 0
        = .ok (db1, ⟨1, 1, 1, RegStatus.registered⟩) ∧
      db1.registrations = dbFiveSeats.registrations
        ++ [⟨1, 1, 1, RegStatus.registered⟩] ∧
      eventCounter db1 1 = eventCounter dbFiveSeats 1 + 1 :=
  (register_precondition_order dbFiveSeats 1 1 0).2.2.2.2.2.2.1 evFiveSeats
    (by decide) (by decide) (by decide) (by decide) (by decide) (by decide)

/-- C4, counterexample: register then cancel (both succeed), leaving only a
cancelled registration for the pair; a new `register_student` call for the
same student and event is still rejected as a duplicate, because the
duplicate query does not filter on the status column. -/
theorem reregister_after_cancel_still_conflict :
    allSucceed dbFiveSeats [Op.register 1 1 0, Op.cancel 1] = true ∧
    (runTrace dbFiveSeats [Op.register 1 1 0, Op.cancel 1]).registrations
      = [⟨1, 1, 1, RegStatus.cancelled⟩] ∧
    register_student (runTrace dbFiveSeats [Op.register 1 1 0, Op.cancel 1]) 1 1 0
      = .error ⟨400, "Student already registered for this event"⟩ :=
  ⟨by decide, by decide, by decide⟩

/-- The counter-increment update of `register_student` preserves event
primary keys. -/
theorem inc_event_id (eid : Nat) (e : Event) :
    (if e.id == eid then
      { e with currentRegistrations := e.currentRegistrations + 1 }
     else e).id = e.id := by
  by_cases hb : (e.id == eid) = true
  · rw [if_pos hb]
  · rw [if_neg hb]

/-- Looking up the target event after the counter-increment update. -/
theorem findEvent_map_inc (db : DB) (eid : Nat) :
    (db.events.map (fun e =>
      if e.id == eid then
        { e with currentRegistrations := e.currentRegistrations + 1 }
      else e)).find? (fun e => e.id == eid)
      = (db.events.find? (fun e => e.id == eid)).map (fun e =>
          if e.id == eid then
            { e with currentRegistrations := e.currentRegistrations + 1 }
          else e) :=
  keyFind_map (g := Event.id) (k := eid) (fun e => inc_event_id eid e) db.events

/-- C4, amended: given that the student and the event exist, the event is
active and starts after `now`, `register_student` fails with the duplicate
Conflict error exactly when some registration row — of any status,
cancelled included — links the pair; consequently a second call while the
first registration is live fails as a duplicate, with the counter having
been incremented only by the first call. -/
theorem duplicate_conflict_ignores_status (db : DB) (sid eid : Nat)
    (now : Int) (event : Event)
    (h1 : (findStudent db sid).isSome = true)
    (h2 : findEvent db eid = some event)
    (h3 : event.status = EventStatus.active)
    (h4 : now < event.startTime) :
    (register_student db sid eid now
        = .error ⟨400, "Student already registered for this event"⟩ ↔
      ∃ r ∈ db.registrations, r.studentId = sid ∧ r.eventId = eid) ∧
    (∀ db1 reg1 now2, register_student db sid eid now = .ok (db1, reg1) →
      now2 < event.startTime →
      register_student db1 sid eid now2
        = .error ⟨400, "Student already registered for this event"⟩ ∧
      eventCounter db1 eid = eventCounter db eid + 1) := by
  have hpair : (findRegistrationPair db sid eid).isSome = true ↔
      ∃ r ∈ db.registrations, r.studentId = sid ∧ r.eventId = eid := by
    unfold findRegistrationPair
    rw [List.find?_isSome]
    constructor
    · rintro ⟨r, hr, hp⟩
      rw [Bool.and_eq_true, beq_iff_eq, beq_iff_eq] at hp
      exact ⟨r, hr, hp⟩
    · rintro ⟨r, hr, hp⟩
      exact ⟨r, hr, by rw [Bool.and_eq_true, beq_iff_eq, beq_iff_eq]; exact hp⟩
  constructor
  · rw [← hpair]
    cases hs : findStudent db sid with
    | none => rw [hs] at h1; simp at h1
    | some s =>
      constructor
      · intro hres
        by_contra hns
        rw [Bool.not_eq_true, Option.not_isSome, Option.isNone_iff_eq_none] at hns
        unfold register_student at hres
        rw [hs, h2] at hres
        dsimp only at hres
        rw [if_neg (by simp [h3]), if_neg (not_le.mpr h4),
          if_neg (by simp [hns])] at hres
        by_cases hc : event.maxCapacity ≤ event.currentRegistrations
        · rw [if_pos hc] at hres
          exact absurd hres (by decide)
        · rw [if_neg hc] at hres
          cases hres
      · intro hsome
        unfold register_student
        rw [hs, h2]
        dsimp only
        rw [if_neg (by simp [h3]), if_neg (not_le.mpr h4), if_pos hsome]
  · intro db1 reg1 now2 hok hnow2
    obtain ⟨event1, h2b, -, -, -, -, -, hreg1, hdb1⟩ := register_ok_inv hok
    rw [h2] at h2b
    injection h2b with h2b
    subst h2b
    have hevid : (event.id == eid) = true := by
      unfold findEvent at h2
      have := List.find?_some h2
      simpa using this
    subst hreg1
    subst hdb1
    have hfe1 : findEvent
        { db with
          registrations := db.registrations
            ++ [⟨db.nextRegId, sid, eid, RegStatus.registered⟩]
          events := db.events.map (fun e =>
            if e.id == eid then
              { e with currentRegistrations := e.currentRegistrations + 1 }
            else e)
          nextRegId := db.nextRegId + 1 } eid
        = some { event with
            currentRegistrations := event.currentRegistrations + 1 } := by
      unfold findEvent
      dsimp only
      rw [findEvent_map_inc]
      unfold findEvent at h2
      rw [h2, Option.map_some']
      rw [if_pos hevid]
    constructor
    · unfold register_student
      cases hs1 : findStudent
          { db with
            registrations := db.registrations
              ++ [⟨db.nextRegId, sid, eid, RegStatus.registered⟩]
            events := db.events.map (fun e =>
              if e.id == eid then
                { e with currentRegistrations := e.currentRegistrations + 1 }
              else e)
            nextRegId := db.nextRegId + 1 } sid with
      | none =>
        unfold findStudent at hs1 h1
        rw [hs1] at h1
        simp at h1
      | some s =>
        rw [hfe1]
        dsimp only
        rw [if_neg (by simp [h3]), if_neg (not_le.mpr hnow2)]
        have hps : (findRegistrationPair
            { db with
              registrations := db.registrations
                ++ [⟨db.nextRegId, sid, eid, RegStatus.registered⟩]
              events := db.events.map (fun e =>
                if e.id == eid then
                  { e with currentRegistrations := e.currentRegistrations + 1 }
                else e)
              nextRegId := db.nextRegId + 1 } sid eid).isSome = true := by
          unfold findRegistrationPair
          rw [List.find?_append]
          have hone : List.find? (fun r => r.studentId == sid && r.eventId == eid)
              [(⟨db.nextRegId, sid, eid, RegStatus.registered⟩ : Registration)]
              = some (⟨db.nextRegId, sid, eid, RegStatus.registered⟩ : Registration) :=
            List.find?_cons_of_pos _ (by simp)
          cases db.registrations.find?
              (fun r => r.studentId == sid && r.eventId == eid) with
          | none => rw [Option.none_or, hone]; rfl
          | some r => rfl
        rw [if_pos hps]
    · unfold eventCounter
      rw [hfe1]
      unfold findEvent at h2
      unfold findEvent
      rw [h2]

/-- Witness for C4 (amended): in the store produced by register-then-cancel
only a cancelled pair row exists, and the duplicate Conflict is equivalent
to its presence. -/
theorem duplicate_conflict_ignores_status_witness :
    register_student (runTrace dbFiveSeats [Op.register 1 1 0, Op.cancel 1]) 1 1 0
        = .error ⟨400, "Student already registered for this event"⟩ ↔
      ∃ r ∈ (runTrace dbFiveSeats [Op.register 1 1 0, Op.cancel 1]).registrations,
        r.studentId = 1 ∧ r.eventId = 1 :=
  (duplicate_conflict_ignores_status
    (runTrace dbFiveSeats [Op.register 1 1 0, Op.cancel 1]) 1 1 0
    ⟨1, 1, "E1", "workshop", 100, 200, 5, 0, EventStatus.active⟩
    (by decide) (by decide) (by decide) (by decide)).1

/-- Writing an attendance row back through `upsertAttendance` makes it the
row found for its registration. -/
theorem findAttendance_upsert (db : DB) (a : Attendance) :
    findAttendance (upsertAttendance db a) a.registrationId = some a := by
  unfold upsertAttendance
  by_cases hany : db.attendance.any
      (fun x => x.registrationId == a.registrationId) = true
  · rw [if_pos hany]
    unfold findAttendance
    rw [List.find?_map]
    have hcomp : ((fun x : Attendance => x.registrationId == a.registrationId) ∘
        (fun x => if x.registrationId == a.registrationId then a else x))
        = (fun x : Attendance => x.registrationId == a.registrationId) := by
      funext x
      by_cases hb : (x.registrationId == a.registrationId) = true
      · simp [Function.comp, hb]
      · simp [Function.comp, hb]
    rw [hcomp]
    rw [List.any_eq_true] at hany
    obtain ⟨x0, hx0, hpx0⟩ := hany
    have hsome : (db.attendance.find?
        (fun x => x.registrationId == a.registrationId)).isSome = true :=
      List.find?_isSome.mpr ⟨x0, hx0, hpx0⟩
    cases hf : db.attendance.find?
        (fun x => x.registrationId == a.registrationId) with
    | none => rw [hf] at hsome; simp at hsome
    | some y =>
      rw [Option.map_some']
      have hpy := List.find?_some hf
      rw [if_pos hpy]
  · rw [if_neg hany]
    unfold findAttendance
    rw [List.find?_append]
    cases hf : db.attendance.find?
        (fun x => x.registrationId == a.registrationId) with
    | none =>
      rw [Option.none_or]
      exact List.find?_cons_of_pos _ (by simp)
    | some y =>
      exact absurd (List.any_eq_true.mpr
        ⟨y, List.mem_of_find?_eq_some hf, List.find?_some hf⟩) hany

/-- When no attendance row exists for the registration yet,
`upsertAttendance` is a plain insert. -/
theorem upsertAttendance_of_none (db : DB) (a : Attendance)
    (h : findAttendance db a.registrationId = none) :
    upsertAttendance db a = { db with attendance := db.attendance ++ [a] } := by
  unfold upsertAttendance
  rw [if_neg]
  intro hany
  rw [List.any_eq_true] at hany
  obtain ⟨x0, hx0, hpx0⟩ := hany
  unfold findAttendance at h
  rw [List.find?_eq_none] at h
  exact h x0 hx0 hpx0

/-- C5: for a 'registered' registration with no check-in recorded, a
check-in at `now` succeeds, stores `check_in_time = now`, and classifies
the attendance as 'late' exactly when `now` exceeds the event's start time
plus the fixed 15-minute grace window, as 'present' otherwise — in
particular 'present' exactly at the boundary. -/
theorem check_in_grace_window (db : DB) (rid : Nat) (now : Int)
    (reg : Registration) (event : Event)
    (hreg : findRegistration db rid = some reg)
    (hst : reg.status = RegStatus.registered)
    (hev : findEvent db reg.eventId = some event)
    (hnoci : ((findAttendance db rid).getD (freshAttendance rid)).checkInTime
      = none) :
    ∃ db1 rec1, mark_attendance db rid AttAction.check_in now = .ok (db1, rec1) ∧
      rec1.checkInTime = some now ∧
      rec1.status = (if event.startTime + graceMinutes < now then AttStatus.late
                     else AttStatus.present) ∧
      findAttendance db1 rid = some rec1 := by
  have hrecid : ((findAttendance db rid).getD (freshAttendance rid)).registrationId
      = rid := by
    cases ha : findAttendance db rid with
    | none => rfl
    | some a0 =>
      unfold findAttendance at ha
      have := List.find?_some ha
      rw [Option.getD_some]
      simpa using this
  have hmain : mark_attendance db rid AttAction.check_in now
      = .ok (upsertAttendance db
          { (findAttendance db rid).getD (freshAttendance rid) with
            checkInTime := some now
            status := if now > event.startTime + graceMinutes then AttStatus.late
                      else AttStatus.present },
          { (findAttendance db rid).getD (freshAttendance rid) with
            checkInTime := some now
            status := if now > event.startTime + graceMinutes then AttStatus.late
                      else AttStatus.present }) := by
    unfold mark_attendance
    rw [hreg]
    dsimp only
    rw [if_neg (by simp [hst]), hev]
    dsimp only
    rw [if_neg (by rw [hnoci]; simp)]
  generalize hr1 : ({ (findAttendance db rid).getD (freshAttendance rid) with
      checkInTime := some now
      status := if now > event.startTime + graceMinutes then AttStatus.late
                else AttStatus.present } : Attendance) = r1 at hmain
  have hr1id : r1.registrationId = rid := by
    rw [← hr1]
    exact hrecid
  have hr1ci : r1.checkInTime = some now := by rw [← hr1]
  have hr1st : r1.status
      = (if event.startTime + graceMinutes < now then AttStatus.late
         else AttStatus.present) := by rw [← hr1]
  refine ⟨_, r1, hmain, hr1ci, hr1st, ?_⟩
  rw [← hr1id]
  exact findAttendance_upsert db r1


/-- Witness for C5 at the exact 15-minute boundary (start 100, check-in at
115): the check-in succeeds and the boundary classifies as 'present'. -/
theorem check_in_grace_window_witness :
    (∃ db1 rec1, mark_attendance dbRegistered 1 AttAction.check_in 115
        = .ok (db1, rec1) ∧
      rec1.checkInTime = some 115 ∧
      rec1.status = (if (100 : Int) + graceMinutes < 115 then AttStatus.late
                     else AttStatus.present) ∧
      findAttendance db1 1 = some rec1) ∧
    (if (100 : Int) + graceMinutes < 115 then AttStatus.late
     else AttStatus.present) = AttStatus.present :=
  ⟨check_in_grace_window dbRegistered 1 115 ⟨1, 1, 1, RegStatus.registered⟩
    ⟨1, 1, "E1", "workshop", 100, 200, 5, 1, EventStatus.active⟩
    (by decide) (by decide) (by decide) (by decide), by decide⟩

/-- C6: the attendance state machine rejects — the handler raises before
`db.commit()`, so the store is unchanged — a check-in when a check-in time
is already recorded (Conflict), a check-out when no check-in time is
recorded (InvalidState), and a check-out when a check-out time is already
recorded (Conflict); a first check-in with no attendance row creates the
row lazily (the created record carries status 'absent' before the check-in
is applied), appending exactly one new row. -/
theorem attendance_state_machine_rejections (db : DB) (rid : Nat) (now : Int)
    (reg : Registration)
    (hreg : findRegistration db rid = some reg)
    (hst : reg.status = RegStatus.registered) :
    (∀ a, findAttendance db rid = some a → a.checkInTime.isSome = true →
      mark_attendance db rid AttAction.check_in now
        = .error ⟨400, "Student already checked in"⟩) ∧
    (((findAttendance db rid).getD (freshAttendance rid)).checkInTime = none →
      mark_attendance db rid AttAction.check_out now
        = .error ⟨400, "Student must check in before checking out"⟩) ∧
    (∀ a, findAttendance db rid = some a → a.checkInTime.isSome = true →
      a.checkOutTime.isSome = true →
      mark_attendance db rid AttAction.check_out now
        = .error ⟨400, "Student already checked out"⟩) ∧
    (freshAttendance rid).status = AttStatus.absent ∧
    (findAttendance db rid = none →
      ∀ db1 rec1, mark_attendance db rid AttAction.check_in now = .ok (db1, rec1) →
        db1.attendance = db.attendance ++ [rec1]) := by
  refine ⟨?_, ?_, ?_, rfl, ?_⟩
  · intro a ha hci
    unfold mark_attendance
    rw [hreg]
    dsimp only
    rw [if_neg (by simp [hst]), ha, Option.getD_some]
    rw [if_pos hci]
  · intro h
    unfold mark_attendance
    rw [hreg]
    dsimp only
    rw [if_neg (by simp [hst])]
    rw [if_pos (by rw [h]; rfl)]
  · intro a ha hci hco
    unfold mark_attendance
    rw [hreg]
    dsimp only
    rw [if_neg (by simp [hst]), ha, Option.getD_some]
    rw [if_neg (by
        simp only [Option.isNone_iff_eq_none]
        intro hn
        rw [hn] at hci
        cases hci),
      if_pos hco]
  · intro hnone db1 rec1 hok
    have hstep : ∀ st : AttStatus,
        (upsertAttendance db
          { freshAttendance rid with checkInTime := some now, status := st }).attendance
          = db.attendance
            ++ [{ freshAttendance rid with checkInTime := some now, status := st }] := by
      intro st
      rw [upsertAttendance_of_none db _ hnone]
    unfold mark_attendance at hok
    rw [hreg] at hok
    dsimp only at hok
    rw [if_neg (by simp [hst]), hnone, Option.getD_none] at hok
    rw [if_neg (by simp [freshAttendance])] at hok
    cases hev : findEvent db reg.eventId with
    | none =>
      rw [hev] at hok
      dsimp only at hok
      injection hok with hok
      injection hok with hok1 hok2
      subst hok1
      subst hok2
      exact hstep _
    | some event =>
      rw [hev] at hok
      dsimp only at hok
      by_cases hlate : now > event.startTime + graceMinutes
      · rw [if_pos hlate] at hok
        injection hok with hok
        injection hok with hok1 hok2
        subst hok1
        subst hok2
        exact hstep _
      · rw [if_neg hlate] at hok
        injection hok with hok
        injection hok with hok1 hok2
        subst hok1
        subst hok2
        exact hstep _

/-- Witness for C6: a double check-in is rejected on a store with a
recorded check-in, and a check-out without prior check-in is rejected on a
store with no attendance row. -/
theorem attendance_state_machine_rejections_witness :
    mark_attendance dbAttended 1 AttAction.check_in 120
      = .error ⟨400, "Student already checked in"⟩ ∧
    mark_attendance dbRegistered 1 AttAction.check_out 120
      = .error ⟨400, "Student must check in before checking out"⟩ :=
  ⟨(attendance_state_machine_rejections dbAttended 1 120
      ⟨1, 1, 1, RegStatus.registered⟩ (by decide) (by decide)).1
      ⟨1, some 100, none, AttStatus.present⟩ (by decide) (by decide),
   (attendance_state_machine_rejections dbRegistered 1 120
      ⟨1, 1, 1, RegStatus.registered⟩ (by decide) (by decide)).2.1 (by decide)⟩

/-- C7: `submit_feedback` succeeds exactly when the rating is in 1..5, the
registration exists, a qualifying ('present' or 'late') attendance row
exists for it, and no feedback exists yet; the out-of-range rating is
rejected by the schema validator (422), missing or 'absent' attendance
yields the Forbidden error, and existing feedback yields the Conflict
error — all errors pairwise distinct. -/
theorem feedback_gate_characterization (db : DB) (rid : Nat) (rating : Int)
    (comment : String) :
    (isOk (submit_feedback db rid rating comment) = true ↔
      (1 ≤ rating ∧ rating ≤ 5) ∧ (findRegistration db rid).isSome = true ∧
      (∃ a ∈ db.attendance, a.registrationId = rid ∧
        (a.status = AttStatus.present ∨ a.status = AttStatus.late)) ∧
      findFeedback db rid = none) ∧
    ((rating < 1 ∨ 5 < rating) →
      submit_feedback db rid rating comment
        = .error ⟨422, "Rating must be between 1 and 5"⟩) ∧
    ((1 ≤ rating ∧ rating ≤ 5) → (findRegistration db rid).isSome = true →
      ¬(∃ a ∈ db.attendance, a.registrationId = rid ∧
        (a.status = AttStatus.present ∨ a.status = AttStatus.late)) →
      submit_feedback db rid rating comment
        = .error ⟨400, "Only students who attended the event can submit feedback"⟩) ∧
    ((1 ≤ rating ∧ rating ≤ 5) → (findRegistration db rid).isSome = true →
      (∃ a ∈ db.attendance, a.registrationId = rid ∧
        (a.status = AttStatus.present ∨ a.status = AttStatus.late)) →
      (findFeedback db rid).isSome = true →
      submit_feedback db rid rating comment
        = .error ⟨400, "Feedback already submitted for this event"⟩) ∧
    ([(⟨422, "Rating must be between 1 and 5"⟩ : HTTPError),
      ⟨404, "Registration not found"⟩,
      ⟨400, "Only students who attended the event can submit feedback"⟩,
      ⟨400, "Feedback already submitted for this event"⟩] : List HTTPError).Nodup := by
  have hattiff : (db.attendance.find? (fun a =>
      a.registrationId == rid &&
      (a.status == AttStatus.present || a.status == AttStatus.late))).isSome = true ↔
      (∃ a ∈ db.attendance, a.registrationId = rid ∧
        (a.status = AttStatus.present ∨ a.status = AttStatus.late)) := by
    rw [List.find?_isSome]
    constructor
    · rintro ⟨a, ha, hp⟩
      refine ⟨a, ha, ?_⟩
      simpa using hp
    · rintro ⟨a, ha, hp⟩
      refine ⟨a, ha, ?_⟩
      simpa using hp
  have hrangeBool : ∀ (h : ¬(rating < 1 ∨ 5 < rating)),
      ((rating < 1 : Bool) || (rating > 5 : Bool)) = false := by
    intro h
    simp only [Bool.or_eq_false_iff, decide_eq_false_iff_not]
    omega
  refine ⟨?_, ?_, ?_, ?_, by decide⟩
  · by_cases hrange : rating < 1 ∨ 5 < rating
    · constructor
      · intro hok
        unfold submit_feedback at hok
        rw [if_pos (by rcases hrange with h | h <;> simp [h])] at hok
        cases hok
      · rintro ⟨hr, -, -, -⟩
        omega
    · have hr15 : 1 ≤ rating ∧ rating ≤ 5 := by omega
      unfold submit_feedback
      rw [if_neg (by rw [hrangeBool hrange]; simp)]
      cases hr : findRegistration db rid with
      | none =>
        dsimp only
        constructor
        · intro h
          simp [isOk] at h
        · rintro ⟨-, hreg, -, -⟩
          simp at hreg
      | some r =>
        dsimp only
        cases hat : db.attendance.find? (fun a =>
            a.registrationId == rid &&
            (a.status == AttStatus.present || a.status == AttStatus.late)) with
        | none =>
          dsimp only
          rw [hat] at hattiff
          simp only [Option.isSome_none, Bool.false_eq_true, false_iff] at hattiff
          constructor
          · intro h
            simp [isOk] at h
          · rintro ⟨-, -, hatt, -⟩
            exact absurd hatt hattiff
        | some a =>
          dsimp only
          by_cases hfb : (findFeedback db rid).isSome = true
          · rw [if_pos hfb]
            constructor
            · intro h
              simp [isOk] at h
            · rintro ⟨-, -, -, hfn⟩
              rw [hfn] at hfb
              simp at hfb
          · rw [if_neg hfb]
            constructor
            · intro h2x
              exact ⟨hr15, rfl, hattiff.mp (by rw [hat]; rfl),
                Option.not_isSome_iff_eq_none.mp hfb⟩
            · intro h2x
              rfl
  · intro h
    unfold submit_feedback
    rw [if_pos (by rcases h with h | h <;> simp [h])]
  · rintro ⟨h1, h2⟩ hreg hnoatt
    unfold submit_feedback
    rw [if_neg (by rw [hrangeBool (by omega)]; simp)]
    cases hr : findRegistration db rid with
    | none => rw [hr] at hreg; simp at hreg
    | some r =>
      dsimp only
      cases hat : db.attendance.find? (fun a =>
          a.registrationId == rid &&
          (a.status == AttStatus.present || a.status == AttStatus.late)) with
      | none => rfl
      | some a =>
        exact absurd (hattiff.mp (by rw [hat]; rfl)) hnoatt
  · rintro ⟨h1, h2⟩ hreg hatt hfb
    unfold submit_feedback
    rw [if_neg (by rw [hrangeBool (by omega)]; simp)]
    cases hr : findRegistration db rid with
    | none => rw [hr] at hreg; simp at hreg
    | some r =>
      dsimp only
      cases hat : db.attendance.find? (fun a =>
          a.registrationId == rid &&
          (a.status == AttStatus.present || a.status == AttStatus.late)) with
      | none =>
        rw [hat] at hattiff
        simp at hattiff
        obtain ⟨a0, ha0, hid0, hs0⟩ := hatt
        rcases hs0 with hs0 | hs0
        · exact absurd hs0 (hattiff a0 ha0 hid0).1
        · exact absurd hs0 (hattiff a0 ha0 hid0).2
      | some a =>
        dsimp only
        rw [if_pos hfb]

/-- Witness for C7: feedback on a 'present' attendance satisfies the
success characterization; feedback with no attendance row is Forbidden;
rating 6 is rejected by validation. -/
theorem feedback_gate_characterization_witness :
    (isOk (submit_feedback dbAttended 1 4 "ok") = true ↔
      ((1 : Int) ≤ 4 ∧ (4 : Int) ≤ 5) ∧
      (findRegistration dbAttended 1).isSome = true ∧
      (∃ a ∈ dbAttended.attendance, a.registrationId = 1 ∧
        (a.status = AttStatus.present ∨ a.status = AttStatus.late)) ∧
      findFeedback dbAttended 1 = none) ∧
    submit_feedback dbRegistered 1 4 "ok"
      = .error ⟨400, "Only students who attended the event can submit feedback"⟩ ∧
    submit_feedback dbAttended 1 6 "ok"
      = .error ⟨422, "Rating must be between 1 and 5"⟩ :=
  ⟨(feedback_gate_characterization dbAttended 1 4 "ok").1,
   (feedback_gate_characterization dbRegistered 1 4 "ok").2.2.1 (by decide)
     (by decide) (by decide),
   (feedback_gate_characterization dbAttended 1 6 "ok").2.1 (by decide)⟩

/-- C8: for every event in the attendance-summary scope whose cached
counter is zero, the report still contains the event's row — the function
is total, nothing is raised — and its attendance percentage is NULL
(SQLite division by zero), not a computed value. -/
theorem attendance_summary_null_on_zero (db : DB) (cid : Option Nat)
    (e : Event) (hmem : e ∈ db.events) (hscope : attSummaryScope cid e = true)
    (hzero : e.currentRegistrations = 0) :
    attendanceSummaryRow db e ∈ get_attendance_summary_report db cid ∧
    (attendanceSummaryRow db e).attendancePercentage = none := by
  constructor
  · unfold get_attendance_summary_report
    rw [mem_sortedBy]
    exact List.mem_map_of_mem _ (List.mem_filter.mpr ⟨hmem, hscope⟩)
  · unfold attendanceSummaryRow
    simp [sqliteDiv, hzero]

/-- Witness for C8 on a store whose only event has zero registrations. -/
theorem attendance_summary_null_on_zero_witness :
    attendanceSummaryRow dbZeroRegs
        ⟨1, 1, "E1", "workshop", 100, 200, 10, 0, EventStatus.active⟩
      ∈ get_attendance_summary_report dbZeroRegs none ∧
    (attendanceSummaryRow dbZeroRegs
        ⟨1, 1, "E1", "workshop", 100, 200, 10, 0, EventStatus.active⟩).attendancePercentage
      = none :=
  attendance_summary_null_on_zero dbZeroRegs none
    ⟨1, 1, "E1", "workshop", 100, 200, 10, 0, EventStatus.active⟩
    (by decide) (by decide) (by decide)

/-- C9: every row of the popularity report comes from an active event in
scope, the rows are ordered by total registration count descending with
ties broken by `current_registrations` descending, and the report is
truncated to the top-N limit. -/
theorem event_popularity_ranking (db : DB) (cid : Option Nat) (limit : Nat) :
    (∀ row ∈ get_event_popularity_report db cid limit,
      ∃ e ∈ db.events, popScope cid e = true ∧ row = popularityRow db e) ∧
    (get_event_popularity_report db cid limit).Pairwise
      (fun a b => popGe a b = true) ∧
    (get_event_popularity_report db cid limit).length ≤ limit := by
  have htot : ∀ a b : PopularityRow, popGe a b = true ∨ popGe b a = true := by
    intro a b
    unfold popGe
    simp only [Bool.or_eq_true, Bool.and_eq_true, decide_eq_true_eq, beq_iff_eq]
    omega
  have htrans : ∀ a b c : PopularityRow,
      popGe a b = true → popGe b c = true → popGe a c = true := by
    intro a b c
    unfold popGe
    simp only [Bool.or_eq_true, Bool.and_eq_true, decide_eq_true_eq, beq_iff_eq]
    omega
  refine ⟨?_, ?_, ?_⟩
  · intro row hrow
    unfold get_event_popularity_report at hrow
    have hrow1 := List.take_subset _ _ hrow
    rw [mem_sortedBy, List.mem_map] at hrow1
    obtain ⟨e, he, rfl⟩ := hrow1
    rw [List.mem_filter] at he
    exact ⟨e, he.1, he.2, rfl⟩
  · unfold get_event_popularity_report
    exact List.Pairwise.sublist (List.take_sublist _ _)
      (pairwise_sortedBy htot htrans _)
  · unfold get_event_popularity_report
    exact List.length_take_le _ _

/-- Witness for C9 on the 5/10, 10/10, 0/5 example: the report lists the
events in the order 10/10, 5/10, 0/5, and every row is backed by an active
event of the college. -/
theorem event_popularity_ranking_witness :
    ((get_event_popularity_report dbPopularity (some 1) 10).map (fun r =>
        (r.id, r.totalRegistrations, r.currentRegistrations, r.maxCapacity))
      = [(2, 10, 10, 10), (1, 5, 5, 10), (3, 0, 0, 5)]) ∧
    (∀ row ∈ get_event_popularity_report dbPopularity (some 1) 10,
      ∃ e ∈ dbPopularity.events, popScope (some 1) e = true ∧
        row = popularityRow dbPopularity e) :=
  ⟨by decide, (event_popularity_ranking dbPopularity (some 1) 10).1⟩

/-- C10: `cancel_registration` succeeds for every existing registration
whatever its current status — an already-cancelled (or 'attended')
registration is cancelled again without error — setting the status to
'cancelled' and decrementing the owning event's counter whenever it is
positive (truncated at zero), so repeated cancels keep decrementing. -/
theorem cancel_ignores_status (db : DB) (rid : Nat) (reg : Registration)
    (hfind : findRegistration db rid = some reg) :
    ∃ db1, cancel_registration db rid = .ok db1 ∧
      findRegistration db1 rid = some { reg with status := RegStatus.cancelled } ∧
      ∀ e, findEvent db reg.eventId = some e →
        findEvent db1 reg.eventId
          = some { e with currentRegistrations := e.currentRegistrations - 1 } := by
  have hres : cancel_registration db rid = .ok { db with
      events := db.events.map (fun e =>
        if e.id == reg.eventId && decide (0 < e.currentRegistrations) then
          { e with currentRegistrations := e.currentRegistrations - 1 }
        else e)
      registrations := db.registrations.map (fun r =>
        if r.id == rid then { r with status := RegStatus.cancelled } else r) } := by
    unfold cancel_registration
    rw [hfind]
  have hregid : (reg.id == rid) = true := by
    unfold findRegistration at hfind
    simpa using List.find?_some hfind
  refine ⟨_, hres, ?_, ?_⟩
  · unfold findRegistration
    dsimp only
    rw [keyFind_map (g := Registration.id) (k := rid)
      (fun r => by
        show (if r.id == rid then { r with status := RegStatus.cancelled }
          else r).id = r.id
        by_cases hb : (r.id == rid) = true
        · rw [if_pos hb]
        · rw [if_neg hb]) db.registrations]
    unfold findRegistration at hfind
    rw [hfind, Option.map_some']
    rw [if_pos hregid]
  · intro e he
    unfold findEvent
    dsimp only
    rw [keyFind_map (g := Event.id) (k := reg.eventId)
      (fun x => by
        show (if x.id == reg.eventId && decide (0 < x.currentRegistrations) then
          { x with currentRegistrations := x.currentRegistrations - 1 }
          else x).id = x.id
        by_cases hb : (x.id == reg.eventId && decide (0 < x.currentRegistrations))
            = true
        · rw [if_pos hb]
        · rw [if_neg hb]) db.events]
    unfold findEvent at he
    rw [he, Option.map_some']
    have heid : (e.id == reg.eventId) = true := by
      simpa using List.find?_some he
    by_cases hc : 0 < e.currentRegistrations
    · rw [if_pos (by rw [heid]; simp [hc])]
    · rw [if_neg (by simp [hc])]
      have h0 : e.currentRegistrations = 0 := by omega
      have : e.currentRegistrations - 1 = e.currentRegistrations := by omega
      rw [this]

/-- Witness for C10: cancelling an already-cancelled registration succeeds
again and decrements the counter from 1 to 0. -/
theorem cancel_ignores_status_witness :
    ∃ db1, cancel_registration dbCancelledReg 1 = .ok db1 ∧
      findRegistration db1 1 = some ⟨1, 1, 1, RegStatus.cancelled⟩ ∧
      ∀ e, findEvent dbCancelledReg 1 = some e →
        findEvent db1 1
          = some { e with currentRegistrations := e.currentRegistrations - 1 } :=
  cancel_ignores_status dbCancelledReg 1 ⟨1, 1, 1, RegStatus.cancelled⟩ (by decide)

end EventKnot
